import Mathlib

/-!
Verification of the resilient name-resolution layer and history-gating logic
of `process_excel_data.py`.

Python strings are modelled as lists of Unicode code points (`PyStr`), which
is what Python's `str` is semantically: `unicodedata.normalize`, `str.lower`,
`re.sub` and slicing all operate code point by code point on ASCII data.
-/

/-- A Python string, as its sequence of Unicode code points. -/
abbrev PyStr := List Nat

/-- Code-point list of a Lean string literal (used to transcribe the Python
string literals of the source). -/
def pystr (s : String) : PyStr :=
  s.data.map Char.toNat

/-- Compatibility decomposition (NFKD) of a single code point, modelling
`unicodedata.normalize('NFKD', ...)` restricted to an explicit table of the
accented characters relevant here; code points without a listed decomposition
map to themselves, as in Unicode. All table keys are non-ASCII. -/
def nfkdCode (n : Nat) : List Nat :=
  if n = 0xe9 then [0x65, 0x301]        -- e acute -> e + combining acute
  else if n = 0xe8 then [0x65, 0x300]   -- e grave
  else if n = 0xea then [0x65, 0x302]   -- e circumflex
  else if n = 0xe0 then [0x61, 0x300]   -- a grave
  else if n = 0xe7 then [0x63, 0x327]   -- c cedilla
  else if n = 0xfc then [0x75, 0x308]   -- u diaeresis
  else if n = 0xc9 then [0x45, 0x301]   -- E acute
  else if n = 0x2460 then [0x31]        -- circled digit one -> 1
  else [n]

/-- ASCII code points matched by Python's regex class backslash-s
(space, tab, LF, VT, FF, CR, and the ASCII separator controls 28-31).
Only ASCII matters here: the regex runs after the ASCII fold. -/
def isPyWsCode (n : Nat) : Bool :=
  n = 32 || n = 9 || n = 10 || n = 11 || n = 12 || n = 13 ||
  n = 28 || n = 29 || n = 30 || n = 31

/-- `str.lower` on an ASCII code point. -/
def lowerCode (n : Nat) : Nat :=
  if 65 ≤ n ∧ n ≤ 90 then n + 32 else n

/-- Embeds `normalize_text_for_matching` (lines 35-42): empty/absent input
yields the empty key; otherwise NFKD-decompose, drop non-ASCII code points
(`encode('ascii', 'ignore')`), lower-case, and strip all whitespace
(`re.sub` with the whitespace class). -/
def normalize_text_for_matching (text : PyStr) : PyStr :=
  if text = [] then []
  else
    let nfkd_form := text.flatMap nfkdCode
    let only_ascii := nfkd_form.filter (fun n => decide (n ≤ 127))
    let lower_case := only_ascii.map lowerCode
    let no_whitespace := lower_case.filter (fun n => !isPyWsCode n)
    no_whitespace

/-- Embeds the local `normalize_for_substring_search` (lines 102-105):
NFKD, ASCII fold, lower-case, then `replace(" ", "")` — removing only the
literal space character, and with no empty-input shortcut. -/
def normalize_for_substring_search (text : PyStr) : PyStr :=
  let nfkd_form := text.flatMap nfkdCode
  let only_ascii := nfkd_form.filter (fun n => decide (n ≤ 127))
  ((only_ascii.map lowerCode).filter (fun n => decide (n ≠ 32)))

/-- Python's `s.startswith(pre)`. -/
def pyStartsWith (s pre : PyStr) : Bool :=
  pre.isPrefixOf s

/-- Python's `needle in hay` substring test. -/
def pyContains (needle : PyStr) : PyStr → Bool
  | [] => needle.isEmpty
  | a :: rest => needle.isPrefixOf (a :: rest) || pyContains needle rest

/-- Python truthiness of an `Optional[str]`: `None` and `""` are falsy. -/
def pyFalsyOptStr : Option PyStr → Bool
  | none => true
  | some s => s.isEmpty

/-- A row of the audit table (`historical_schema`, lines 223-227):
`filename` and `processing_timestamp` are strings, `flagged_line_count` a
64-bit integer (values actually written are non-negative counts). -/
structure HistoryRecord where
  filename : PyStr
  processing_timestamp : PyStr
  flagged_line_count : Int
deriving DecidableEq, Repr

/-- The fatal resolution failures of the run, carrying exactly the data the
source interpolates into the corresponding exception messages:
`sheetNotFound` models the `ValueError` of lines 67-70 (raw prefix,
normalized prefix, available sheet names); `columnNotFound` models the
`ValueError`s of lines 166 and 182 (the literal target name appearing in the
message text, and the full header list). -/
inductive RunError where
  | sheetNotFound (targetRaw : PyStr) (targetNormalized : PyStr)
      (availableSheetNames : List PyStr)
  | columnNotFound (targetName : PyStr) (headerNames : List PyStr)
deriving DecidableEq, Repr

/-- Embeds the sheet-resolution loop of `find_resilient_sheet_name`
(lines 49, 62-70): normalize the target once, return the first sheet name in
enumeration order whose normalized form starts with the normalized prefix,
else fail carrying the raw prefix, the normalized prefix, and the full sheet
list. (The surrounding HDFS/openpyxl I/O that produces the sheet list is an
external collaborator; the list is taken as input.) -/
def find_resilient_sheet_name (available_sheet_names : List PyStr)
    (target_raw : PyStr) : Except RunError PyStr :=
  let normalized_target := normalize_text_for_matching target_raw
  match available_sheet_names.find?
      (fun s => pyStartsWith (normalize_text_for_matching s) normalized_target) with
  | some sheet_name_original => .ok sheet_name_original
  | none => .error (.sheetNotFound target_raw normalized_target available_sheet_names)

/-- `selected.append(col) if col not in selected` (lines 82-83). -/
def insDedup (selected : List PyStr) (col : PyStr) : List PyStr :=
  if col ∈ selected then selected else selected ++ [col]

/-- Embeds `get_resilient_column_names` (lines 75-87): for each target prefix
in order, scan all columns in source order and append every column whose
normalized form starts with the normalized prefix, unless already selected.
Note the inner loop has no break: every matching column is collected. -/
def get_resilient_column_names (actual_columns : List PyStr)
    (target_prefixes_raw : List PyStr) : List PyStr :=
  let normalized_target_prefs := target_prefixes_raw.map normalize_text_for_matching
  normalized_target_prefs.foldl
    (fun selected norm_pref =>
      actual_columns.foldl
        (fun sel col =>
          if pyStartsWith (normalize_text_for_matching col) norm_pref then
            insDedup sel col
          else sel)
        selected)
    []

/-- The per-column test of `find_flag_columns_for_aggregation` (lines
111-116): the fully normalized name starts with normalized "flag", and the
looser (space-only-stripped) normalization contains normalized "marker1" or
"marker2" as a substring. -/
def flagQualifies (col_name : PyStr) : Bool :=
  pyStartsWith (normalize_text_for_matching col_name)
      (normalize_text_for_matching (pystr "flag")) &&
  (pyContains (normalize_for_substring_search (pystr "marker1"))
      (normalize_for_substring_search col_name) ||
   pyContains (normalize_for_substring_search (pystr "marker2"))
      (normalize_for_substring_search col_name))

/-- Embeds `find_flag_columns_for_aggregation` (lines 94-119): a fold over
the columns keeping `col_flag_name`, set to the current column when it
qualifies and `col_flag_name` is still falsy (`and not col_flag_name`). -/
def find_flag_columns_for_aggregation (actual_columns : List PyStr) : Option PyStr :=
  actual_columns.foldl
    (fun col_flag_name col_name =>
      if flagQualifies col_name && pyFalsyOptStr col_flag_name then some col_name
      else col_flag_name)
    none

/-- A data-frame row: column name to value, null as `none` (columns absent
from the row read as null). -/
abbrev Row := List (PyStr × Option PyStr)

/-- Value of a column in a row. -/
def rowGet (r : Row) (col : PyStr) : Option PyStr :=
  match r.find? (fun p => decide (p.1 = col)) with
  | some p => p.2
  | none => none

/-- Spark's `F.trim`: strips leading and trailing space characters (0x20)
only — not tabs or other whitespace (SPARK-17299 semantics). -/
def sparkTrim (v : PyStr) : PyStr :=
  ((v.dropWhile (fun n => decide (n = 32))).reverse.dropWhile
      (fun n => decide (n = 32))).reverse

/-- The row-validity predicate of the filter at lines 169-172:
`col.isNotNull() & (trim(col) != "")`. -/
def rowValid (r : Row) (col : PyStr) : Bool :=
  match rowGet r col with
  | none => false
  | some v => decide (sparkTrim v ≠ [])

/-- `df.select(F.col(src).alias(dst), ...)` applied to one row. -/
def projectRow (select_expressions : List (PyStr × PyStr)) (r : Row) : Row :=
  select_expressions.map (fun p => (p.1, rowGet r p.2))

/-- `os.path.basename` for POSIX paths: the suffix after the last slash. -/
def os_path_basename (p : PyStr) : PyStr :=
  p.foldl (fun acc n => if n = 47 then [] else acc ++ [n]) []

/-- Inputs of one run of `process_excel`, with the external collaborators
(spreadsheet decoder, wall clock, audit-table read) represented by their
results: the enumerated sheet names, the loaded sheet's headers and rows, the
input path, the current minute-precision timestamp string, and the outcome of
the `ORDER BY processing_timestamp DESC LIMIT 1` read of the history table
(`.error` when the table is missing or unreadable, `.ok none` when empty). -/
structure PipelineInput where
  sheetNames : List PyStr
  headers : List PyStr
  rows : List Row
  hdfs_excel_path : PyStr
  now_str : PyStr
  readLatest : Except Unit (Option HistoryRecord)
deriving Repr

/-- Observable outcome of a successful run: the resolved column names, the
intermediate table contents written by `mode('overwrite')`, the computed
count, the candidate history record, the gate decision, and the records
appended to the history table (the run's only history-table write). -/
structure RunResult where
  actual_column_a : PyStr
  actual_column_b : PyStr
  actual_flag_col : Option PyStr
  intermediate_headers : List PyStr
  intermediate_rows : List Row
  flagged_line_count : Nat
  candidate : HistoryRecord
  last_record_changed : Bool
  appended : List HistoryRecord
deriving DecidableEq, Repr

/-- The success path of `process_excel` (lines 169-261), parameterized by the
two resolved required column names: filter rows on the pre-rename resolved
`column_a`, heuristically resolve the flag column (never fatal),
project/rename to the intermediate table, compute `flagged_line_count`,
build the candidate history record, and run the history gate of lines
230-261. -/
def runCore (inp : PipelineInput) (actual_column_a actual_column_b : PyStr) :
    RunResult :=
  let df_spark := inp.rows.filter (fun r => rowValid r actual_column_a)
  let initial_row_count := df_spark.length
  let actual_flag_col := find_flag_columns_for_aggregation inp.headers
  let select_expressions :=
    [(pystr "column_a", actual_column_a), (pystr "column_b", actual_column_b)] ++
      (match actual_flag_col with
       | some f => [(pystr "flag", f)]
       | none => [])
  let df_for_hive_intermediate := df_spark.map (projectRow select_expressions)
  let excel_file_name_only := os_path_basename inp.hdfs_excel_path
  let flagged_line_count : Nat :=
    match actual_flag_col with
    | some f =>
      if 0 < initial_row_count then
        df_spark.countP (fun r => (rowGet r f).isSome)
      else 0
    | none => 0
  let candidate : HistoryRecord :=
    ⟨excel_file_name_only, inp.now_str, (flagged_line_count : Int)⟩
  let last_record_changed : Bool :=
    match inp.readLatest with
    | .error _ => true
    | .ok none => true
    | .ok (some last_record) =>
      !(decide (excel_file_name_only = last_record.filename) &&
        decide ((flagged_line_count : Int) = last_record.flagged_line_count))
  { actual_column_a := actual_column_a
    actual_column_b := actual_column_b
    actual_flag_col := actual_flag_col
    intermediate_headers := select_expressions.map Prod.fst
    intermediate_rows := df_for_hive_intermediate
    flagged_line_count := flagged_line_count
    candidate := candidate
    last_record_changed := last_record_changed
    appended := if last_record_changed then [candidate] else [] }

/-- Embeds `process_excel` (lines 121-261): resolve the sheet (fatal if no
sheet matches), resolve `column_a` and `column_b` taking the head of each
candidate list (fatal if empty, lines 164-166 and 180-182), then run the
success path `runCore`. -/
def process_excel (inp : PipelineInput) : Except RunError RunResult :=
  match find_resilient_sheet_name inp.sheetNames (pystr "sheet_prefix_to_find") with
  | .error e => .error e
  | .ok _excel_sheet_name =>
    match get_resilient_column_names inp.headers [pystr "column_a"] with
    | [] => .error (.columnNotFound (pystr "column_a") inp.headers)
    | actual_column_a :: _ =>
      match get_resilient_column_names inp.headers [pystr "column_b"] with
      | [] => .error (.columnNotFound (pystr "column_b") inp.headers)
      | actual_column_b :: _ =>
        .ok (runCore inp actual_column_a actual_column_b)

/-- Diagnostic completeness of a resolution failure: the error carries the
raw target prefix it was raised for, the normalized form of that prefix, and
the full list of available candidate names. For `columnNotFound` the carried
target name is its own normalized form (the targets are `"column_a"` and
`"column_b"`, already lower-case, ASCII and whitespace-free), so the raw
prefix and its normalization are both carried. -/
def errorDiagnosticsOK (inp : PipelineInput) : RunError → Prop
  | .sheetNotFound raw norm avail =>
      raw = pystr "sheet_prefix_to_find" ∧
      norm = normalize_text_for_matching raw ∧
      avail = inp.sheetNames
  | .columnNotFound name hdrs =>
      (name = pystr "column_a" ∨ name = pystr "column_b") ∧
      normalize_text_for_matching name = name ∧
      hdrs = inp.headers

/-- First-occurrence-preserving deduplication, the order in which
`get_resilient_column_names` accumulates its selection. -/
def dedupKeepFirst (l : List PyStr) : List PyStr :=
  l.foldl insDedup []

/-- The matching test of the column resolver, spelt as one predicate: the
normalized candidate starts with the normalized target prefix. -/
def colMatches (col target : PyStr) : Bool :=
  pyStartsWith (normalize_text_for_matching col) (normalize_text_for_matching target)

/-- The matching test of the sheet resolver (same rule as for columns). -/
def sheetMatches (target sheet : PyStr) : Bool :=
  pyStartsWith (normalize_text_for_matching sheet) (normalize_text_for_matching target)

-- ===================================================================
-- Concrete run inputs and their results, used by witnesses and
-- counterexamples below
-- ===================================================================

/-- A run over a sheet whose `column_a` value is a single tab character. -/
def tabRowInput : PipelineInput := {
  sheetNames := [pystr "sheet_prefix_to_find"]
  headers := [pystr "column_a", pystr "column_b"]
  rows := [[(pystr "column_a", some (pystr "\t")),
            (pystr "column_b", some (pystr "x"))]]
  hdfs_excel_path := pystr "q1.xlsx"
  now_str := pystr "2024-01-01 00:00"
  readLatest := .ok none }

/-- A run whose latest prior history record matches the candidate
(same filename after basename extraction, same count): the gate skips. -/
def skipInput : PipelineInput := {
  sheetNames := [pystr "sheet_prefix_to_find"]
  headers := [pystr "column_a", pystr "column_b"]
  rows := []
  hdfs_excel_path := pystr "dir/q1.xlsx"
  now_str := pystr "2024-01-01 00:00"
  readLatest := .ok (some ⟨pystr "q1.xlsx", pystr "2023-12-31 23:59", 0⟩) }

/-- The result of `process_excel skipInput`. -/
def skipResult : RunResult := {
  actual_column_a := pystr "column_a"
  actual_column_b := pystr "column_b"
  actual_flag_col := none
  intermediate_headers := [pystr "column_a", pystr "column_b"]
  intermediate_rows := []
  flagged_line_count := 0
  candidate := ⟨pystr "q1.xlsx", pystr "2024-01-01 00:00", 0⟩
  last_record_changed := false
  appended := [] }

/-- A run with a resolvable flag column, three rows (one with a spaces-only
`column_a`, excluded; among the two valid rows one has a null flag value),
and an unreadable history table. -/
def flagRunInput : PipelineInput := {
  sheetNames := [pystr "sheet_prefix_to_find"]
  headers := [pystr "column_a", pystr "column_b", pystr "Flag Marker1"]
  rows := [
    [(pystr "column_a", some (pystr "A1")), (pystr "column_b", some (pystr "b1")),
     (pystr "Flag Marker1", some (pystr "y"))],
    [(pystr "column_a", some (pystr "   ")), (pystr "column_b", some (pystr "b2")),
     (pystr "Flag Marker1", some (pystr "y"))],
    [(pystr "column_a", some (pystr "A3")), (pystr "column_b", none),
     (pystr "Flag Marker1", none)]]
  hdfs_excel_path := pystr "q1.xlsx"
  now_str := pystr "2024-01-01 00:00"
  readLatest := .error () }

/-- The spaces-only row of `flagRunInput`. -/
def spacesRow : Row :=
  [(pystr "column_a", some (pystr "   ")), (pystr "column_b", some (pystr "b2")),
   (pystr "Flag Marker1", some (pystr "y"))]

/-- The result of `process_excel flagRunInput`. -/
def flagRunResult : RunResult := {
  actual_column_a := pystr "column_a"
  actual_column_b := pystr "column_b"
  actual_flag_col := some (pystr "Flag Marker1")
  intermediate_headers := [pystr "column_a", pystr "column_b", pystr "flag"]
  intermediate_rows := [
    [(pystr "column_a", some (pystr "A1")), (pystr "column_b", some (pystr "b1")),
     (pystr "flag", some (pystr "y"))],
    [(pystr "column_a", some (pystr "A3")), (pystr "column_b", none),
     (pystr "flag", none)]]
  flagged_line_count := 1
  candidate := ⟨pystr "q1.xlsx", pystr "2024-01-01 00:00", 1⟩
  last_record_changed := true
  appended := [⟨pystr "q1.xlsx", pystr "2024-01-01 00:00", 1⟩] }

/-- A run whose headers contain no match for `column_a`: fatal. -/
def missingColumnInput : PipelineInput := {
  sheetNames := [pystr "sheet_prefix_to_find"]
  headers := [pystr "x"]
  rows := []
  hdfs_excel_path := pystr "q1.xlsx"
  now_str := pystr "2024-01-01 00:00"
  readLatest := .ok none }

-- ===================================================================
-- Helper lemmas
-- ===================================================================

theorem nfkdCode_of_ascii {n : Nat} (h : n ≤ 127) : nfkdCode n = [n] := by
  unfold nfkdCode
  repeat rw [if_neg (by omega)]

theorem lowerCode_le {n : Nat} (h : n ≤ 127) : lowerCode n ≤ 127 := by
  unfold lowerCode
  split <;> omega

theorem lowerCode_idem (n : Nat) : lowerCode (lowerCode n) = lowerCode n := by
  by_cases h : 65 ≤ n ∧ n ≤ 90
  · simp only [lowerCode, if_pos h]
    rw [if_neg (by omega)]
  · simp only [lowerCode, if_neg h]

/-- Every code point of a normalized key is ASCII, lower-case fixed, and not
whitespace. -/
theorem mem_normalize {t : PyStr} {n : Nat} (h : n ∈ normalize_text_for_matching t) :
    n ≤ 127 ∧ lowerCode n = n ∧ isPyWsCode n = false := by
  unfold normalize_text_for_matching at h
  split at h
  · simp at h
  · simp only [List.mem_filter, List.mem_map] at h
    obtain ⟨⟨m, ⟨-, hma⟩, hmn⟩, hws⟩ := h
    have hma' : m ≤ 127 := by simpa using hma
    subst hmn
    refine ⟨lowerCode_le hma', lowerCode_idem m, ?_⟩
    simpa using hws

theorem flatMap_nfkd_of_ascii {l : PyStr} (h : ∀ n ∈ l, n ≤ 127) :
    l.flatMap nfkdCode = l := by
  induction l with
  | nil => rfl
  | cons a l ih =>
    rw [List.flatMap_cons, nfkdCode_of_ascii (h a (by simp)),
      ih (fun n hn => h n (by simp [hn]))]
    rfl

theorem map_fixed {l : PyStr} {f : Nat → Nat} (h : ∀ n ∈ l, f n = n) :
    l.map f = l := by
  induction l with
  | nil => rfl
  | cons a l ih =>
    rw [List.map_cons, h a (by simp), ih (fun n hn => h n (by simp [hn]))]

/-- A list all of whose code points are already normalized is a fixed point
of `normalize_text_for_matching`. -/
theorem normalize_fixed {l : PyStr}
    (h : ∀ n ∈ l, n ≤ 127 ∧ lowerCode n = n ∧ isPyWsCode n = false) :
    normalize_text_for_matching l = l := by
  unfold normalize_text_for_matching
  split
  · simp_all
  · have h1 : l.flatMap nfkdCode = l := flatMap_nfkd_of_ascii (fun n hn => (h n hn).1)
    have h2 : l.filter (fun n => decide (n ≤ 127)) = l :=
      List.filter_eq_self.mpr (fun n hn => by simpa using (h n hn).1)
    have h3 : l.map lowerCode = l := map_fixed (fun n hn => (h n hn).2.1)
    have h4 : l.filter (fun n => !isPyWsCode n) = l :=
      List.filter_eq_self.mpr (fun n hn => by simp [(h n hn).2.2])
    simp only [h1, h2, h3, h4]

theorem mem_insDedup {sel : List PyStr} {a c : PyStr} :
    c ∈ insDedup sel a ↔ c ∈ sel ∨ c = a := by
  unfold insDedup
  split
  · next ha => exact ⟨Or.inl, fun h => h.elim id (fun e => e ▸ ha)⟩
  · simp

theorem insDedup_nodup {sel : List PyStr} {a : PyStr} (h : sel.Nodup) :
    (insDedup sel a).Nodup := by
  unfold insDedup
  split
  · exact h
  · next ha => simp [List.nodup_append, h, ha]

theorem mem_foldl_insDedup :
    ∀ (l sel : List PyStr) (c : PyStr),
      c ∈ l.foldl insDedup sel ↔ c ∈ sel ∨ c ∈ l := by
  intro l
  induction l with
  | nil => simp
  | cons a l ih =>
    intro sel c
    rw [List.foldl_cons, ih, mem_insDedup]
    simp [or_assoc]

theorem nodup_foldl_insDedup :
    ∀ (l sel : List PyStr), sel.Nodup → (l.foldl insDedup sel).Nodup := by
  intro l
  induction l with
  | nil => exact fun sel h => h
  | cons a l ih => exact fun sel h => ih _ (insDedup_nodup h)

theorem foldl_guard_filter (p : PyStr → Bool) :
    ∀ (l sel : List PyStr),
      l.foldl (fun s c => if p c then insDedup s c else s) sel =
        (l.filter p).foldl insDedup sel := by
  intro l
  induction l with
  | nil => intro sel; rfl
  | cons a l ih =>
    intro sel
    rw [List.foldl_cons, List.filter_cons]
    by_cases hp : p a
    · rw [if_pos hp, if_pos hp, List.foldl_cons]
      exact ih _
    · rw [if_neg hp, if_neg hp]
      exact ih sel

/-- The nested fold of `get_resilient_column_names` equals a keep-first
deduplication of the concatenated per-prefix match lists. -/
theorem get_resilient_foldl_eq :
    ∀ (prefs cols sel : List PyStr),
      (prefs.map normalize_text_for_matching).foldl
        (fun selected norm_pref =>
          cols.foldl
            (fun s c =>
              if pyStartsWith (normalize_text_for_matching c) norm_pref then
                insDedup s c
              else s)
            selected)
        sel =
      (prefs.flatMap (fun p => cols.filter (fun c => colMatches c p))).foldl
        insDedup sel := by
  intro prefs
  induction prefs with
  | nil => intros; rfl
  | cons p ps ih =>
    intro cols sel
    rw [List.map_cons, List.foldl_cons, List.flatMap_cons, List.foldl_append, ih,
      foldl_guard_filter]
    simp only [colMatches]

theorem get_resilient_eq_dedup (cols prefs : List PyStr) :
    get_resilient_column_names cols prefs =
      dedupKeepFirst
        (prefs.flatMap (fun p => cols.filter (fun c => colMatches c p))) := by
  unfold get_resilient_column_names dedupKeepFirst
  exact get_resilient_foldl_eq prefs cols []

theorem get_resilient_mem {cols prefs : List PyStr} {c : PyStr} :
    c ∈ get_resilient_column_names cols prefs ↔
      c ∈ cols ∧ ∃ p ∈ prefs, colMatches c p = true := by
  rw [get_resilient_eq_dedup]
  unfold dedupKeepFirst
  rw [mem_foldl_insDedup]
  simp only [List.not_mem_nil, false_or, List.mem_flatMap, List.mem_filter]
  constructor
  · rintro ⟨p, hp, hc, hm⟩
    exact ⟨hc, p, hp, hm⟩
  · rintro ⟨hc, p, hp, hm⟩
    exact ⟨p, hp, hc, hm⟩

theorem get_resilient_nodup (cols prefs : List PyStr) :
    (get_resilient_column_names cols prefs).Nodup := by
  rw [get_resilient_eq_dedup]
  exact nodup_foldl_insDedup _ _ List.nodup_nil

theorem flagQualifies_not_nil {c : PyStr} (h : flagQualifies c = true) :
    c.isEmpty = false := by
  cases c with
  | nil => exact absurd h (by decide)
  | cons a l => rfl

theorem foldl_flag_some :
    ∀ (l : List PyStr) (c : PyStr), flagQualifies c = true →
      l.foldl
        (fun col_flag_name col_name =>
          if flagQualifies col_name && pyFalsyOptStr col_flag_name then
            some col_name
          else col_flag_name)
        (some c) = some c := by
  intro l
  induction l with
  | nil => intros; rfl
  | cons a l ih =>
    intro c hc
    rw [List.foldl_cons]
    have h2 :
        (if flagQualifies a && pyFalsyOptStr (some c) then some a else some c) =
          some c := by
      simp [pyFalsyOptStr, flagQualifies_not_nil hc]
    rw [h2]
    exact ih c hc

theorem find_flag_eq_find? (cols : List PyStr) :
    find_flag_columns_for_aggregation cols = cols.find? flagQualifies := by
  unfold find_flag_columns_for_aggregation
  induction cols with
  | nil => rfl
  | cons a l ih =>
    rw [List.foldl_cons]
    by_cases hq : flagQualifies a = true
    · have h1 :
          (if flagQualifies a && pyFalsyOptStr none then some a else none) =
            some a := by
        simp [hq, pyFalsyOptStr]
      rw [h1, foldl_flag_some l a hq, List.find?_cons_of_pos _ hq]
    · have h1 :
          (if flagQualifies a && pyFalsyOptStr none then some a else none) =
            none := by
        simp [hq]
      rw [h1, ih, List.find?_cons_of_neg _ (by simpa using hq)]

theorem sparkTrim_all_spaces {v : PyStr} (h : ∀ n ∈ v, n = 32) :
    sparkTrim v = [] := by
  unfold sparkTrim
  have h1 : v.dropWhile (fun n => decide (n = 32)) = [] := by
    rw [List.dropWhile_eq_nil_iff]
    intro x hx
    simp [h x hx]
  rw [h1]
  rfl

/-- `find_resilient_sheet_name` succeeds exactly when the first-match search
does. -/
theorem find_resilient_ok_iff {cands target c} :
    find_resilient_sheet_name cands target = .ok c ↔
      cands.find?
        (fun s =>
          pyStartsWith (normalize_text_for_matching s)
            (normalize_text_for_matching target)) = some c := by
  simp only [find_resilient_sheet_name]
  cases hf :
      cands.find?
        (fun s =>
          pyStartsWith (normalize_text_for_matching s)
            (normalize_text_for_matching target)) with
  | none => simp [hf]
  | some s => simp [hf]

theorem find_resilient_error_inv {cands target e}
    (h : find_resilient_sheet_name cands target = .error e) :
    e = .sheetNotFound target (normalize_text_for_matching target) cands := by
  simp only [find_resilient_sheet_name] at h
  cases hf :
      cands.find?
        (fun s =>
          pyStartsWith (normalize_text_for_matching s)
            (normalize_text_for_matching target)) with
  | none =>
    rw [hf] at h
    exact (Except.error.inj h).symm
  | some s =>
    rw [hf] at h
    exact Except.noConfusion h

/-- Inversion of a successful run. -/
theorem process_excel_ok_inv {inp : PipelineInput} {res : RunResult}
    (h : process_excel inp = .ok res) :
    ∃ sheet ra rb a b,
      find_resilient_sheet_name inp.sheetNames (pystr "sheet_prefix_to_find") =
        .ok sheet ∧
      get_resilient_column_names inp.headers [pystr "column_a"] = a :: ra ∧
      get_resilient_column_names inp.headers [pystr "column_b"] = b :: rb ∧
      res = runCore inp a b := by
  unfold process_excel at h
  cases hfs :
      find_resilient_sheet_name inp.sheetNames (pystr "sheet_prefix_to_find") with
  | error e =>
    rw [hfs] at h
    exact Except.noConfusion h
  | ok sheet =>
    rw [hfs] at h
    cases hca : get_resilient_column_names inp.headers [pystr "column_a"] with
    | nil =>
      rw [hca] at h
      exact Except.noConfusion h
    | cons a ra =>
      rw [hca] at h
      cases hcb : get_resilient_column_names inp.headers [pystr "column_b"] with
      | nil =>
        rw [hcb] at h
        exact Except.noConfusion h
      | cons b rb =>
        rw [hcb] at h
        exact ⟨sheet, ra, rb, a, b, rfl, rfl, rfl, (Except.ok.inj h).symm⟩

/-- Inversion of a failed run: the only errors are the sheet error and the
two required-column errors. -/
theorem process_excel_error_inv {inp : PipelineInput} {e : RunError}
    (h : process_excel inp = .error e) :
    e = .sheetNotFound (pystr "sheet_prefix_to_find")
          (normalize_text_for_matching (pystr "sheet_prefix_to_find"))
          inp.sheetNames ∨
    e = .columnNotFound (pystr "column_a") inp.headers ∨
    e = .columnNotFound (pystr "column_b") inp.headers := by
  unfold process_excel at h
  cases hfs :
      find_resilient_sheet_name inp.sheetNames (pystr "sheet_prefix_to_find") with
  | error e0 =>
    rw [hfs] at h
    have he : e = e0 := (Except.error.inj h).symm
    subst he
    exact Or.inl (find_resilient_error_inv hfs)
  | ok sheet =>
    rw [hfs] at h
    cases hca : get_resilient_column_names inp.headers [pystr "column_a"] with
    | nil =>
      rw [hca] at h
      exact Or.inr (Or.inl (Except.error.inj h).symm)
    | cons a ra =>
      rw [hca] at h
      cases hcb : get_resilient_column_names inp.headers [pystr "column_b"] with
      | nil =>
        rw [hcb] at h
        exact Or.inr (Or.inr (Except.error.inj h).symm)
      | cons b rb =>
        rw [hcb] at h
        exact Except.noConfusion h

/-- A run with a matched sheet and non-empty candidate lists for both
required columns succeeds. -/
theorem process_excel_isOk {inp : PipelineInput} {sheet : PyStr}
    (h1 : find_resilient_sheet_name inp.sheetNames (pystr "sheet_prefix_to_find") =
      .ok sheet)
    (h2 : get_resilient_column_names inp.headers [pystr "column_a"] ≠ [])
    (h3 : get_resilient_column_names inp.headers [pystr "column_b"] ≠ []) :
    (process_excel inp).toOption.isSome = true := by
  unfold process_excel
  rw [h1]
  cases hca : get_resilient_column_names inp.headers [pystr "column_a"] with
  | nil => exact absurd hca h2
  | cons a ra =>
    cases hcb : get_resilient_column_names inp.headers [pystr "column_b"] with
    | nil => exact absurd hcb h3
    | cons b rb => rfl

-- ===================================================================
-- Claim theorems
-- ===================================================================

/-- C9: for every text input `x`, the shared normalizer is idempotent:
`normalize_text_for_matching (normalize_text_for_matching x) =
normalize_text_for_matching x`. -/
theorem claim9_normalize_idempotent (x : PyStr) :
    normalize_text_for_matching (normalize_text_for_matching x) =
      normalize_text_for_matching x :=
  normalize_fixed (fun _ hn => mem_normalize hn)

/-- C3: `find_flag_columns_for_aggregation` returns exactly the first header
in source order whose fully normalized key starts with normalized "flag" and
whose looser normalization contains "marker1" or "marker2" as a substring
(`flagQualifies`); `List.find?` semantics give first-match, at-most-one
selection, and `none` (not an error) when no header qualifies. -/
theorem claim3_find_flag_column_first_match (headers : List PyStr) :
    find_flag_columns_for_aggregation headers = headers.find? flagQualifies :=
  find_flag_eq_find? headers

/-- C6: `resolve_one` is order-sensitive: it returns `c` exactly when the
candidate list splits as `pre ++ c :: post` with `c` matching the normalized
prefix test and every earlier candidate failing it. -/
theorem claim6_resolve_one_first_match (cands : List PyStr) (target c : PyStr) :
    find_resilient_sheet_name cands target = .ok c ↔
      sheetMatches target c = true ∧
      ∃ pre post, cands = pre ++ c :: post ∧
        ∀ s ∈ pre, sheetMatches target s = false := by
  rw [find_resilient_ok_iff, List.find?_eq_some]
  simp only [sheetMatches, Bool.not_eq_true']

/-- Witness for C6, the spec's own example: with candidates
`["Flag (old)", "Flagged v2"]` and target prefix `"flag"`, both match after
normalization and the first in source order is returned. -/
theorem claim6_witness :
    find_resilient_sheet_name [pystr "Flag (old)", pystr "Flagged v2"]
        (pystr "flag") = .ok (pystr "Flag (old)") :=
  (claim6_resolve_one_first_match _ _ _).mpr
    ⟨by decide, [], [pystr "Flagged v2"], rfl, by simp⟩

/-- Counterexample to C2 as stated: the claim says only the first candidate
matching a prefix is collected, so for candidates `["a1", "a2"]` and the
single prefix `"a"` it predicts `["a1"]`; the code's inner loop has no break
and collects both. -/
theorem claim2_counterexample :
    get_resilient_column_names [pystr "a1", pystr "a2"] [pystr "a"] =
        [pystr "a1", pystr "a2"] ∧
      get_resilient_column_names [pystr "a1", pystr "a2"] [pystr "a"] ≠
        [pystr "a1"] := by
  constructor
  · decide
  · decide

/-- C2 (amended): `resolve_many` iterates prefixes in order and, for each
prefix, collects every candidate in source order whose normalized form
starts with the normalized prefix, skipping candidates already collected
(dedup by original-cased identity); the result equals a keep-first
deduplication of the concatenated per-prefix match lists, has no duplicates,
contains exactly the matching candidates, and is empty (not an error) when
nothing matches. -/
theorem claim2_resolve_many_collects_all_matches
    (cols prefs : List PyStr) (c : PyStr) :
    get_resilient_column_names cols prefs =
        dedupKeepFirst
          (prefs.flatMap (fun p => cols.filter (fun x => colMatches x p))) ∧
      (get_resilient_column_names cols prefs).Nodup ∧
      (c ∈ get_resilient_column_names cols prefs ↔
        c ∈ cols ∧ ∃ p ∈ prefs, colMatches c p = true) ∧
      ((∀ p ∈ prefs, ∀ x ∈ cols, colMatches x p = false) →
        get_resilient_column_names cols prefs = []) := by
  refine ⟨get_resilient_eq_dedup cols prefs, get_resilient_nodup cols prefs,
    get_resilient_mem, ?_⟩
  intro hnone
  refine List.eq_nil_iff_forall_not_mem.mpr (fun x hx => ?_)
  rcases get_resilient_mem.mp hx with ⟨hxc, p, hp, hm⟩
  rw [hnone p hp x hxc] at hm
  exact Bool.noConfusion hm

/-- Witness for C2 (amended): both matching candidates are members of the
resolved list. -/
theorem claim2_witness :
    pystr "a2" ∈ get_resilient_column_names [pystr "a1", pystr "a2"] [pystr "a"] :=
  (claim2_resolve_many_collects_all_matches [pystr "a1", pystr "a2"] [pystr "a"]
      (pystr "a2")).2.2.1.mpr ⟨by decide, pystr "a", by decide, by decide⟩

/-- C10: when the raw target prefix normalizes to the empty key, every
candidate passes the prefix test, so `resolve_one` returns the head of any
non-empty candidate list, fails exactly on the empty list, and
`resolve_many` collects every candidate. -/
theorem claim10_empty_normalized_prefix
    (target c col : PyStr) (rest cands cols : List PyStr)
    (h : normalize_text_for_matching target = []) :
    find_resilient_sheet_name (c :: rest) target = .ok c ∧
      ((∃ e, find_resilient_sheet_name cands target = .error e) ↔ cands = []) ∧
      (col ∈ cols → col ∈ get_resilient_column_names cols [target]) := by
  have hmatch : ∀ s : PyStr,
      pyStartsWith (normalize_text_for_matching s)
        (normalize_text_for_matching target) = true := by
    intro s
    rw [h]
    cases normalize_text_for_matching s <;> rfl
  refine ⟨?_, ⟨?_, ?_⟩, ?_⟩
  · rw [find_resilient_ok_iff]
    exact List.find?_cons_of_pos _ (hmatch c)
  · rintro ⟨e, he⟩
    cases cands with
    | nil => rfl
    | cons a l =>
      have hok : find_resilient_sheet_name (a :: l) target = .ok a := by
        rw [find_resilient_ok_iff]
        exact List.find?_cons_of_pos _ (hmatch a)
      rw [hok] at he
      exact Except.noConfusion he
  · rintro rfl
    exact ⟨_, rfl⟩
  · intro hc
    exact get_resilient_mem.mpr
      ⟨hc, target, by simp, by unfold colMatches; exact hmatch col⟩

/-- Witness for C10 at the concrete whitespace-only prefix `" "`, which
normalizes to the empty key. -/
theorem claim10_witness :
    find_resilient_sheet_name [pystr "X"] (pystr " ") = .ok (pystr "X") ∧
      ((∃ e, find_resilient_sheet_name [] (pystr " ") = .error e) ↔
        ([] : List PyStr) = []) ∧
      (pystr "X" ∈ [pystr "X"] →
        pystr "X" ∈ get_resilient_column_names [pystr "X"] [pystr " "]) :=
  claim10_empty_normalized_prefix (pystr " ") (pystr "X") (pystr "X") [] []
    [pystr "X"] (by decide)

/-- C1: the run skips the history append exactly when the most-recent prior
record exists (`readLatest = .ok (some last)`) and matches the candidate on
both `filename` and `flagged_line_count`; with no prior record, or an
unreadable history table, or either field differing, the candidate is
appended. -/
theorem claim1_history_gate_skip_iff_unchanged
    (inp : PipelineInput) (res : RunResult)
    (h : process_excel inp = .ok res) :
    res.appended = [] ↔
      ∃ last, inp.readLatest = .ok (some last) ∧
        last.filename = res.candidate.filename ∧
        last.flagged_line_count = (res.flagged_line_count : Int) := by
  obtain ⟨sheet, ra, rb, a, b, -, -, -, hres⟩ := process_excel_ok_inv h
  subst hres
  simp only [runCore]
  cases hrl : inp.readLatest with
  | error u => simp
  | ok olast =>
    cases olast with
    | none => simp
    | some last0 =>
      constructor
      · intro happ
        by_cases h1 :
            os_path_basename inp.hdfs_excel_path = last0.filename
        · by_cases h2 :
              ((match find_flag_columns_for_aggregation inp.headers with
                | some f =>
                  if 0 < (inp.rows.filter (fun r => rowValid r a)).length then
                    (inp.rows.filter (fun r => rowValid r a)).countP
                      (fun r => (rowGet r f).isSome)
                  else 0
                | none => 0 : Nat) : Int) = last0.flagged_line_count
          · exact ⟨last0, rfl, h1.symm, h2.symm⟩
          · simp [h1, h2] at happ
        · simp [h1] at happ
      · rintro ⟨last, hl, hfn, hfl⟩
        obtain rfl : last0 = last := Option.some.inj (Except.ok.inj hl)
        simp [hfn, hfl]

/-- Witness for C1: a run whose latest prior record matches the candidate
(filename after basename extraction, count 0) skips the append. -/
theorem claim1_witness :
    skipResult.appended = [] ↔
      ∃ last, skipInput.readLatest = .ok (some last) ∧
        last.filename = skipResult.candidate.filename ∧
        last.flagged_line_count = (skipResult.flagged_line_count : Int) :=
  claim1_history_gate_skip_iff_unchanged skipInput skipResult (by rfl)

/-- C8: on skip nothing is appended to the history table; on append exactly
the one candidate record is written; the candidate is built from the input
file's basename, the run timestamp, and the computed count. -/
theorem claim8_history_append_frame
    (inp : PipelineInput) (res : RunResult)
    (h : process_excel inp = .ok res) :
    res.candidate =
        ⟨os_path_basename inp.hdfs_excel_path, inp.now_str,
          (res.flagged_line_count : Int)⟩ ∧
      (res.last_record_changed = false → res.appended = []) ∧
      (res.last_record_changed = true → res.appended = [res.candidate]) := by
  obtain ⟨sheet, ra, rb, a, b, -, -, -, hres⟩ := process_excel_ok_inv h
  subst hres
  refine ⟨rfl, ?_, ?_⟩
  · intro hc
    simp only [runCore] at hc ⊢
    rw [hc]
    rfl
  · intro hc
    simp only [runCore] at hc ⊢
    rw [hc]
    rfl

/-- Witness for C8: the flag run appends exactly its candidate record. -/
theorem claim8_witness :
    flagRunResult.candidate =
        ⟨os_path_basename flagRunInput.hdfs_excel_path, flagRunInput.now_str,
          (flagRunResult.flagged_line_count : Int)⟩ ∧
      flagRunResult.appended = [flagRunResult.candidate] :=
  ⟨(claim8_history_append_frame flagRunInput flagRunResult (by rfl)).1,
    (claim8_history_append_frame flagRunInput flagRunResult (by rfl)).2.2
      (by rfl)⟩

/-- C7: every fatal resolution failure carries the raw target prefix, its
normalized form, and the full list of available candidate names
(`errorDiagnosticsOK`): the sheet error carries all three explicitly; the
required-column errors carry the target name — which equals its own
normalized form — and the full header list. -/
theorem claim7_resolution_error_diagnostics
    (inp : PipelineInput) (e : RunError)
    (h : process_excel inp = .error e) :
    errorDiagnosticsOK inp e := by
  rcases process_excel_error_inv h with he | he | he
  · subst he
    exact ⟨rfl, rfl, rfl⟩
  · subst he
    exact ⟨Or.inl rfl, by decide, rfl⟩
  · subst he
    exact ⟨Or.inr rfl, by decide, rfl⟩

/-- Witness for C7: the run over headers `["x"]` fails on `column_a` with an
error carrying the target name (equal to its normalized form) and the full
header list. -/
theorem claim7_witness :
    errorDiagnosticsOK missingColumnInput
      (.columnNotFound (pystr "column_a") [pystr "x"]) :=
  claim7_resolution_error_diagnostics missingColumnInput
    (.columnNotFound (pystr "column_a") [pystr "x"]) (by rfl)

/-- C4: `flagged_line_count` equals the count of non-null values of the
resolved flag column over the filtered (valid) rows only — including when
the filter leaves no rows, where the source's `initial_row_count > 0`
short-circuit and the count over the empty frame agree on zero; when no flag
column is resolved the count is zero; and the absence of a flag column never
makes the run fail (success depends only on the sheet and the two required
columns). -/
theorem claim4_flagged_line_count_spec
    (inp : PipelineInput) (res : RunResult) (f sheet : PyStr) :
    (process_excel inp = .ok res →
      (res.actual_flag_col = some f →
        res.flagged_line_count =
          (inp.rows.filter (fun r => rowValid r res.actual_column_a)).countP
            (fun r => (rowGet r f).isSome)) ∧
      (res.actual_flag_col = none → res.flagged_line_count = 0)) ∧
    (find_resilient_sheet_name inp.sheetNames (pystr "sheet_prefix_to_find") =
        .ok sheet →
      get_resilient_column_names inp.headers [pystr "column_a"] ≠ [] →
      get_resilient_column_names inp.headers [pystr "column_b"] ≠ [] →
      (process_excel inp).toOption.isSome = true) := by
  constructor
  · intro h
    obtain ⟨sheet0, ra, rb, a, b, -, -, -, hres⟩ := process_excel_ok_inv h
    subst hres
    simp only [runCore]
    constructor
    · intro hf
      simp only [hf]
      by_cases hlen : 0 < (inp.rows.filter (fun r => rowValid r a)).length
      · rw [if_pos hlen]
      · rw [if_neg hlen,
          List.length_eq_zero.mp (Nat.eq_zero_of_not_pos hlen)]
        rfl
    · intro hf
      simp only [hf]
  · exact fun h1 h2 h3 => process_excel_isOk h1 h2 h3

/-- Witness for C4: in the flag run the count (1) equals the non-null count
of the resolved flag column over the two valid rows, and the run succeeds. -/
theorem claim4_witness :
    flagRunResult.flagged_line_count =
        (flagRunInput.rows.filter
            (fun r => rowValid r flagRunResult.actual_column_a)).countP
          (fun r => (rowGet r (pystr "Flag Marker1")).isSome) ∧
      (process_excel flagRunInput).toOption.isSome = true :=
  ⟨((claim4_flagged_line_count_spec flagRunInput flagRunResult
        (pystr "Flag Marker1") (pystr "sheet_prefix_to_find")).1 (by rfl)).1
      (by rfl),
    (claim4_flagged_line_count_spec flagRunInput flagRunResult
        (pystr "Flag Marker1") (pystr "sheet_prefix_to_find")).2 (by rfl)
      (by decide) (by decide)⟩

/-- Counterexample to C5 as stated: the claim says a row whose `column_a`
value is whitespace-only is excluded, but Spark's `trim` strips only space
characters, so a tab-only value (code point 9, whitespace by the program's
own whitespace class) survives the filter: the run over `tabRowInput` writes
one row to the intermediate table where the claim predicts zero. -/
theorem claim5_row_filter_counterexample :
    isPyWsCode 9 = true ∧
      (process_excel tabRowInput).toOption.map
          (fun res => res.intermediate_rows.length) = some 1 :=
  ⟨rfl, rfl⟩

/-- C5 (amended): a row is kept iff its value in the resolved original
(pre-rename) `column_a` column is non-null and nonempty after stripping
leading and trailing space characters (space only — Spark `trim` semantics);
in particular a null or spaces-only value is excluded (but a tab-only value
is retained); the filter runs on the raw rows before the projection and
renaming that build the intermediate table. -/
theorem claim5_row_filter_space_trim
    (inp : PipelineInput) (res : RunResult) (r : Row) (c v : PyStr)
    (h : process_excel inp = .ok res) :
    res.intermediate_rows =
        (inp.rows.filter (fun row => rowValid row res.actual_column_a)).map
          (projectRow
            ([(pystr "column_a", res.actual_column_a),
              (pystr "column_b", res.actual_column_b)] ++
              (match res.actual_flag_col with
               | some fc => [(pystr "flag", fc)]
               | none => []))) ∧
      (rowGet r c = none → rowValid r c = false) ∧
      (rowGet r c = some v → (∀ n ∈ v, n = 32) → rowValid r c = false) := by
  refine ⟨?_, ?_, ?_⟩
  · obtain ⟨sheet, ra, rb, a, b, -, -, -, hres⟩ := process_excel_ok_inv h
    subst hres
    rfl
  · intro hg
    simp only [rowValid, hg]
  · intro hg hv
    simp only [rowValid, hg]
    simp [sparkTrim_all_spaces hv]

/-- Witness for C5 (amended): in the flag run the intermediate rows are
exactly the projection of the space-filtered rows, and the spaces-only row
fails the validity predicate. -/
theorem claim5_witness :
    flagRunResult.intermediate_rows =
        (flagRunInput.rows.filter
            (fun row => rowValid row flagRunResult.actual_column_a)).map
          (projectRow
            ([(pystr "column_a", flagRunResult.actual_column_a),
              (pystr "column_b", flagRunResult.actual_column_b)] ++
              (match flagRunResult.actual_flag_col with
               | some fc => [(pystr "flag", fc)]
               | none => []))) ∧
      rowValid spacesRow (pystr "column_a") = false :=
  ⟨(claim5_row_filter_space_trim flagRunInput flagRunResult spacesRow
      (pystr "column_a") (pystr "   ") (by rfl)).1,
    (claim5_row_filter_space_trim flagRunInput flagRunResult spacesRow
      (pystr "column_a") (pystr "   ") (by rfl)).2.2 (by rfl) (by decide)⟩
